import Mathlib

/-!
Verification of the engineering core of a rule-based trading research toolkit:
the strategy signal contract (`StrategySignal`, `safe_analyze`), the walk-forward
backtest engine (`backtestStep` / `backtestRun`), and the ensemble vote
aggregation (`collectVotes`, `majorityDecision`, `weightedDecision`).

Modelling conventions (shallow embedding of the Python source):
* Python floats are modelled as exact rationals (`ℚ`); Python ints as `ℤ`/`ℕ`.
* A Python function that can raise is modelled as returning
  `Except String StrategySignal`; `.error e` stands for a raised exception
  whose message is `e`.  "Never raises" is expressed by totality of the Lean
  function together with the explicit handling of the `.error` case.
* `int(x)` (truncation toward zero) is `truncQ`; Python's `round(x, 2)`
  (round-half-to-even) is `pyRound2`.
* Human-readable reason strings are kept where they are structurally simple;
  the fully formatted percent strings of the risk-control log messages are
  abstracted into the `RiskReason` tag stored on the trade record.
-/

namespace AITrading


/-! ## Definitions: data model, signal contract, backtest engine, ensemble -/


/-- One OHLCV bar of the input series (`df` rows in the source).  Only
`date` and `close` are consumed by the engine itself; the remaining columns
are carried for the strategies, which are abstract here. -/
structure Bar where
  date : String
  «open» : ℚ
  high : ℚ
  low : ℚ
  close : ℚ
  volume : ℚ
deriving DecidableEq, Repr

/-- The standardized trading signal (`StrategySignal` dataclass). -/
structure StrategySignal where
  action : String
  confidence : ℚ
  reason : String
  position : ℚ
  indicators : List (String × ℚ)
deriving DecidableEq, Repr

/-- Clamp into `[0, 1]`, as in `max(0.0, min(1.0, x))`. -/
def clamp01 (x : ℚ) : ℚ := max 0 (min 1 x)

/-- Constructing a `StrategySignal` runs `__post_init__`, which clamps
`confidence` and `position` into `[0, 1]`. -/
def mkStrategySignal (action : String) (confidence : ℚ) (reason : String)
    (position : ℚ) : StrategySignal :=
  { action := action
    confidence := clamp01 confidence
    reason := reason
    position := clamp01 position
    indicators := [] }

/-- The insufficient-history reason text built by `safe_analyze`. -/
def insufficientReason (need got : ℕ) : String :=
  "数据不足(需" ++ toString need ++ "条，实际" ++ toString got ++ "条)"

/-- `Strategy.safe_analyze`: the exception-protected wrapper around `analyze`.
`analyze` is abstract (`List Bar → Except String StrategySignal`); an
`.error e` result models `analyze` raising an exception with message `e`. -/
def safe_analyze (min_bars : ℕ)
    (analyze : List Bar → Except String StrategySignal)
    (df : List Bar) : StrategySignal :=
  if df.length < min_bars then
    mkStrategySignal "HOLD" 0 (insufficientReason min_bars df.length) (1/2)
  else
    match analyze df with
    | .ok sig => sig
    | .error e => mkStrategySignal "HOLD" 0 ("分析异常: " ++ toString e) (1/2)

/-- A concrete failing analyzer used by the C1 witness. -/
def failingAnalyze : List Bar → Except String StrategySignal :=
  fun _ => .error "boom"

/-- A concrete succeeding analyzer used by the C1 witness. -/
def constAnalyze : List Bar → Except String StrategySignal :=
  fun _ => .ok (mkStrategySignal "BUY" (3/4) "ok" (4/5))

/-- Python `int(x)` on a rational: truncation toward zero (floor for
non-negative arguments, ceiling for negative ones). -/
def truncQ (q : ℚ) : ℤ := if q < 0 then ⌈q⌉ else ⌊q⌋

/-- Python `round(x)` at integer precision: round half to even. -/
def pyRoundInt (q : ℚ) : ℤ :=
  if q - (⌊q⌋ : ℚ) < 1/2 then ⌊q⌋
  else if (1/2 : ℚ) < q - (⌊q⌋ : ℚ) then ⌊q⌋ + 1
  else if ⌊q⌋ % 2 = 0 then ⌊q⌋ else ⌊q⌋ + 1

/-- Python `round(x, 2)`: round half to even at two decimal places (the
source rounds the logged `pnl_pct`; claims do not depend on its value). -/
def pyRound2 (q : ℚ) : ℚ := (pyRoundInt (q * 100) : ℚ) / 100

/-- Which risk-control check produced a forced liquidation.  In the source
the three checks each overwrite the shared `risk_reason` string; the tag
records which formatted message survives into the trade log. -/
inductive RiskReason
  | stopLoss
  | trailingStop
  | takeProfit
deriving DecidableEq, Repr

/-- One entry of the `trades` log.  `resulting_shares` is `total_shares`
for BUY records and `remaining_shares` for strategy SELL records (absent on
risk-control records, as in the source dicts); `pnl_pct` is present on SELL
records only; `risk` is `some r` exactly for the `[风控]`-tagged records. -/
structure TradeRecord where
  date : String
  action : String
  price : ℚ
  shares : ℤ
  resulting_shares : Option ℤ
  pnl_pct : Option ℚ
  risk : Option RiskReason
  reason : String
deriving DecidableEq, Repr

/-- The engine-internal simulated account, one per run, mutated per day. -/
structure BacktestState where
  cash : ℚ
  shares : ℤ
  avg_buy_price : ℚ
  total_buy_cost : ℚ
  max_price_since_buy : ℚ
  trades : List TradeRecord
  equity_curve : List ℚ
deriving DecidableEq, Repr

/-- The cost/risk parameters of `Strategy.backtest`. -/
structure BtParams where
  commission : ℚ
  stamp_tax : ℚ
  stop_loss : ℚ
  trailing_stop : ℚ
  take_profit : ℚ
deriving DecidableEq, Repr

/-- The risk-control reason computed by the three sequential `if` checks of
the source (hard stop-loss, then trailing stop, then take-profit); each
matching check overwrites the previous reason, so the result is the reason
of the LAST matching check, and `none` means no check matched.  `peak` is
the already-updated `max_price_since_buy`. -/
def riskReasonOf (stop_loss trailing_stop take_profit avg_buy_price peak close : ℚ) :
    Option RiskReason :=
  let pnl := (close - avg_buy_price) / avg_buy_price
  let r1 : Option RiskReason :=
    if 0 < stop_loss ∧ pnl ≤ -stop_loss then some .stopLoss else none
  let r2 : Option RiskReason :=
    if 0 < trailing_stop ∧ avg_buy_price < peak ∧
        trailing_stop ≤ (peak - close) / peak then some .trailingStop else r1
  if 0 < take_profit ∧ take_profit ≤ pnl then some .takeProfit else r2

/-- The `max_price_since_buy` update performed at the top of the risk block
(`if close > max_price_since_buy: max_price_since_buy = close`), which the
source only runs while holding shares. -/
def updatedPeak (st : BacktestState) (close : ℚ) : ℚ :=
  if 0 < st.shares ∧ st.max_price_since_buy < close then close
  else st.max_price_since_buy

/-- Target weight of a BUY: `min(0.95, signal.position)`. -/
def buyTargetPos (sig : StrategySignal) : ℚ := min (19/20) sig.position

/-- Shares added by a BUY before the guards:
`int(delta_value / close / 100) * 100`. -/
def buyAddShares (st : BacktestState) (close : ℚ) (sig : StrategySignal) : ℤ :=
  let equity := st.cash + (st.shares : ℚ) * close
  let delta_value := equity * buyTargetPos sig - (st.shares : ℚ) * close
  truncQ (delta_value / close / 100) * 100

/-- Cash cost of a BUY including commission:
`add_shares * close * (1 + commission)`. -/
def buyCost (commission : ℚ) (st : BacktestState) (close : ℚ)
    (sig : StrategySignal) : ℚ :=
  (buyAddShares st close sig : ℚ) * close * (1 + commission)

/-- The BUY branch of the engine, acting on the peak-updated state. -/
def applyBuy (commission : ℚ) (date : String) (close : ℚ)
    (sig : StrategySignal) (st : BacktestState) : BacktestState :=
  let equity := st.cash + (st.shares : ℚ) * close
  let delta_value := equity * buyTargetPos sig - (st.shares : ℚ) * close
  if close * 100 ≤ delta_value then
    let add_shares := buyAddShares st close sig
    if 0 < add_shares then
      if buyCost commission st close sig ≤ st.cash then
        let new_total := st.total_buy_cost + (add_shares : ℚ) * close
        let new_shares := st.shares + add_shares
        { st with
          cash := st.cash - buyCost commission st close sig
          total_buy_cost := new_total
          shares := new_shares
          avg_buy_price := new_total / (new_shares : ℚ)
          max_price_since_buy :=
            if st.max_price_since_buy < close then close
            else st.max_price_since_buy
          trades := st.trades ++
            [⟨date, "BUY", close, add_shares, some new_shares, none, none, sig.reason⟩] }
      else st
    else st
  else st

/-- Target weight of a SELL: `max(0.0, signal.position)`. -/
def sellTargetPos (sig : StrategySignal) : ℚ := max 0 sig.position

/-- Shares removed by a SELL before the full-liquidation clamp:
`int(delta_value / close / 100) * 100`. -/
def sellSharesRaw (st : BacktestState) (close : ℚ) (sig : StrategySignal) : ℤ :=
  let equity := st.cash + (st.shares : ℚ) * close
  let delta_value := (st.shares : ℚ) * close - equity * sellTargetPos sig
  truncQ (delta_value / close / 100) * 100

/-- The full-liquidation clamp: if the target weight is (near) zero or the
remainder would be below one lot, sell every held share instead. -/
def clampedSellShares (shares : ℤ) (target_pos : ℚ) (raw : ℤ) : ℤ :=
  if target_pos < 1/20 ∨ shares - raw < 100 then shares else raw

/-- The SELL branch of the engine, acting on the peak-updated state; the
caller has already checked `shares > 0`. -/
def applySell (commission stamp_tax : ℚ) (date : String) (close : ℚ)
    (sig : StrategySignal) (st : BacktestState) : BacktestState :=
  let sell_shares :=
    clampedSellShares st.shares (sellTargetPos sig) (sellSharesRaw st close sig)
  if 0 < sell_shares ∧ sell_shares ≤ st.shares then
    let revenue := (sell_shares : ℚ) * close * (1 - commission - stamp_tax)
    let pnl := (close - st.avg_buy_price) / st.avg_buy_price
    let new_shares := st.shares - sell_shares
    if new_shares = 0 then
      { st with
        cash := st.cash + revenue
        shares := 0
        avg_buy_price := 0
        total_buy_cost := 0
        max_price_since_buy := 0
        trades := st.trades ++
          [⟨date, "SELL", close, sell_shares, some 0,
            some (pyRound2 (pnl * 100)), none, sig.reason⟩] }
    else
      { st with
        cash := st.cash + revenue
        shares := new_shares
        total_buy_cost := (new_shares : ℚ) * st.avg_buy_price
        trades := st.trades ++
          [⟨date, "SELL", close, sell_shares, some new_shares,
            some (pyRound2 (pnl * 100)), none, sig.reason⟩] }
  else st

/-- The fallback signal substituted when `analyze` raises inside the
backtest loop: `StrategySignal('HOLD', 0.0, '分析异常', 0.5)`. -/
def fallbackSignal : StrategySignal := mkStrategySignal "HOLD" 0 "分析异常" (1/2)

/-- The signal the loop acts on: the analyzer's result, or the HOLD
fallback if the analyzer raised. -/
def effectiveSignal (res : Except String StrategySignal) : StrategySignal :=
  match res with
  | .ok s => s
  | .error _ => fallbackSignal

/-- The signal-dispatch part of one simulated day (after the risk block):
BUY branch, SELL branch (holding only), otherwise no trade; then the
post-trade equity is appended to the equity curve. -/
def strategyPhase (p : BtParams) (date : String) (close : ℚ)
    (res : Except String StrategySignal) (st : BacktestState) : BacktestState :=
  let signal := effectiveSignal res
  let st' :=
    if signal.action = "BUY" then applyBuy p.commission date close signal st
    else if signal.action = "SELL" ∧ 0 < st.shares then
      applySell p.commission p.stamp_tax date close signal st
    else st
  { st' with equity_curve := st'.equity_curve ++ [st'.cash + (st'.shares : ℚ) * close] }

/-- One simulated day of `Strategy.backtest`: update the running peak,
run the risk-control block while holding (a forced full liquidation skips
the strategy for the day), otherwise dispatch on the strategy signal. -/
def backtestStep (p : BtParams) (st : BacktestState) (date : String)
    (close : ℚ) (res : Except String StrategySignal) : BacktestState :=
  let st1 := { st with max_price_since_buy := updatedPeak st close }
  if 0 < st.shares then
    match riskReasonOf p.stop_loss p.trailing_stop p.take_profit
        st.avg_buy_price (updatedPeak st close) close with
    | some r =>
      let revenue := (st.shares : ℚ) * close * (1 - p.commission - p.stamp_tax)
      let pnl := (close - st.avg_buy_price) / st.avg_buy_price
      { cash := st.cash + revenue
        shares := 0
        avg_buy_price := 0
        total_buy_cost := 0
        max_price_since_buy := 0
        trades := st.trades ++
          [⟨date, "SELL", close, st.shares, none,
            some (pyRound2 (pnl * 100)), some r, "[风控]"⟩]
        equity_curve := st.equity_curve ++ [st.cash + revenue] }
    | none => strategyPhase p date close res st1
  else strategyPhase p date close res st1

/-- `close = float(window['close'].iloc[-1])`: the last close of a window. -/
def closeOf (window : List Bar) : ℚ :=
  match window.getLast? with
  | some b => b.close
  | none => 0

/-- `date_str = str(window['date'].iloc[-1])[:10]`. -/
def dateOf (window : List Bar) : String :=
  match window.getLast? with
  | some b => b.date.take 10
  | none => ""

/-- The account at the start of a run. -/
def backtestInit (initial_cash : ℚ) : BacktestState :=
  ⟨initial_cash, 0, 0, 0, 0, [], []⟩

/-- The walk-forward loop of `Strategy.backtest`: for each day `i` from
`min_bars` to the end, run one step on the window `df[:i+1]`, starting from
the fresh account.  With insufficient total history the loop body never
runs and the zero-activity account is returned, as in the source's early
return. -/
def backtestRun (p : BtParams) (min_bars : ℕ)
    (analyze : List Bar → Except String StrategySignal)
    (df : List Bar) (initial_cash : ℚ) : BacktestState :=
  if df.length < min_bars then backtestInit initial_cash
  else
    (List.range' min_bars (df.length - min_bars)).foldl
      (fun st i =>
        let window := df.take (i + 1)
        backtestStep p st (dateOf window) (closeOf window) (analyze window))
      (backtestInit initial_cash)

/-- One sub-strategy of the ensemble: its registry name, its `min_bars`,
its configured weight, and its (abstract, possibly raising) `analyze`. -/
structure EnsembleMember where
  name : String
  min_bars : ℕ
  weight : ℚ
  analyze : List Bar → Except String StrategySignal

/-- The member fan-out loop of `EnsembleStrategy.analyze`: members whose
`min_bars` exceeds the history length are skipped (`continue`), each
remaining member's raw `analyze` is called inside `try/except`, and a
member whose `analyze` raises is likewise skipped (`continue`), so it
appears neither in the vote tally nor in the participating count. -/
def collectVotes (df : List Bar) (members : List EnsembleMember) :
    List (String × StrategySignal) :=
  members.filterMap fun m =>
    if df.length < m.min_bars then none
    else
      match m.analyze df with
      | .ok sig => some (m.name, sig)
      | .error _ => none

/-- `buy_votes`: the participating members whose signal action is BUY. -/
def buyVotes (votes : List (String × StrategySignal)) :
    List (String × StrategySignal) :=
  votes.filter fun v => v.2.action == "BUY"

/-- `sell_votes`: the participating members whose signal action is SELL. -/
def sellVotes (votes : List (String × StrategySignal)) :
    List (String × StrategySignal) :=
  votes.filter fun v => v.2.action == "SELL"

/-- `hold_votes`: the participating members voting neither BUY nor SELL. -/
def holdVotes (votes : List (String × StrategySignal)) :
    List (String × StrategySignal) :=
  votes.filter fun v => !(v.2.action == "BUY") && !(v.2.action == "SELL")

/-- Mean confidence of a vote list (`sum(confidences) / len(votes)`). -/
def avgConfidence (votes : List (String × StrategySignal)) : ℚ :=
  (votes.map fun v => v.2.confidence).sum / (votes.length : ℚ)

/-- `EnsembleStrategy._majority`: action and confidence under majority
voting.  `total` is the participating-member count (HOLD votes included);
the formatted reason string of the source is not modelled. -/
def majorityDecision (buy_threshold sell_threshold : ℚ)
    (buy sell : List (String × StrategySignal)) (total : ℕ) : String × ℚ :=
  if buy_threshold ≤ (buy.length : ℚ) / (total : ℚ) then
    ("BUY", avgConfidence buy)
  else if sell_threshold ≤ (sell.length : ℚ) / (total : ℚ) then
    ("SELL", avgConfidence sell)
  else ("HOLD", 1/2)

/-- `Σ(weight × confidence)` over a vote list; `weights` models
`self.weights.get(name, 1.0)` as a total function. -/
def weightedScore (weights : String → ℚ)
    (votes : List (String × StrategySignal)) : ℚ :=
  (votes.map fun v => weights v.1 * v.2.confidence).sum

/-- `EnsembleStrategy._weighted`: action and confidence under weighted
voting.  HOLD votes are not among the inputs at all (they contribute to
neither score); both percentages are taken of `buy_score + sell_score`. -/
def weightedDecision (buy_threshold sell_threshold : ℚ) (weights : String → ℚ)
    (buy sell : List (String × StrategySignal)) : String × ℚ :=
  let buy_score := weightedScore weights buy
  let sell_score := weightedScore weights sell
  let total_active := buy_score + sell_score
  if total_active = 0 then ("HOLD", 1/2)
  else
    let buy_pct := buy_score / total_active
    let sell_pct := sell_score / total_active
    if sell_pct < buy_pct ∧ buy_threshold ≤ buy_pct then
      ("BUY", pyRound2 buy_pct)
    else if buy_pct < sell_pct ∧ sell_threshold ≤ sell_pct then
      ("SELL", pyRound2 sell_pct)
    else ("HOLD", 1/2)

/-- A one-bar series with positive close for the C3 witness. -/
def witnessDf : List Bar := [⟨"2024-01-02", 10, 10, 10, 10, 1000⟩]

/-- A strategy that always answers BUY at full target position. -/
def witnessBuyAnalyze : List Bar → Except String StrategySignal :=
  fun _ => .ok (mkStrategySignal "BUY" (4/5) "go" 1)

/-- Zero-fee, risk-controls-disabled parameters. -/
def zeroFeeParams : BtParams := ⟨0, 0, 0, 0, 0⟩

/-- The concrete pre-sale account of the C10 witness: 400 shares at
volume-weighted entry 10, consistent cost basis. -/
def partialSellAccount : BacktestState := ⟨0, 400, 10, 4000, 10, [], []⟩

/-- The concrete SELL signal of the C10 witness (half target position). -/
def partialSellSignal : StrategySignal := mkStrategySignal "SELL" (1/2) "减仓" (1/2)

/-- An account holding 100 shares bought at 10 whose peak since entry
is 12: at close 9 both the 8 per cent stop-loss and the 5 per cent
trailing stop match simultaneously. -/
def bothStopsAccount : BacktestState := ⟨0, 100, 10, 1000, 12, [], []⟩

/-- Stop-loss 8 per cent plus trailing stop 5 per cent, no fees. -/
def bothStopsParams : BtParams := ⟨0, 0, 2/25, 1/20, 0⟩

/-- A plain HOLD signal. -/
def holdSignal : StrategySignal := mkStrategySignal "HOLD" 0 "观望" (1/2)

/-- An account that bought 100 shares at 10 whose peak since entry is
still the entry price 10: at close 9 the drawdown from the peak is 10 per
cent, above the 5 per cent trailing stop, but `peak > avg_buy_price`
fails. -/
def trailingGuardAccount : BacktestState := ⟨0, 100, 10, 1000, 10, [], []⟩

/-- Only the trailing stop enabled, at 5 per cent, no fees. -/
def trailingOnlyParams : BtParams := ⟨0, 0, 0, 1/20, 0⟩

/-- A member participates in the vote iff it has enough history AND its
raw `analyze` call does not raise. -/
def analyzeSucceeds (df : List Bar) (m : EnsembleMember) : Bool :=
  !(decide (df.length < m.min_bars)) &&
    (match m.analyze df with
     | .ok _ => true
     | .error _ => false)

/-- A member whose `analyze` always raises, with `min_bars = 30`. -/
def raisingMember : EnsembleMember := ⟨"MA", 30, 1, fun _ => .error "分析异常"⟩

/-- A 50-bar history, long enough for `raisingMember`. -/
def fiftyBars : List Bar := List.replicate 50 ⟨"2024-01-02", 1, 1, 1, 1, 1⟩

/-- Five always-ready members for the C7 example: three BUY voters with
confidences 0.6, 0.7, 0.8 and two HOLD voters. -/
def majorityExampleMembers : List EnsembleMember :=
  [⟨"MA", 0, 1, fun _ => .ok (mkStrategySignal "BUY" (3/5) "金叉" (1/2))⟩,
   ⟨"MACD", 0, 1, fun _ => .ok (mkStrategySignal "BUY" (7/10) "金叉" (1/2))⟩,
   ⟨"RSI", 0, 1, fun _ => .ok (mkStrategySignal "BUY" (4/5) "超卖" (1/2))⟩,
   ⟨"BOLL", 0, 1, fun _ => .ok (mkStrategySignal "HOLD" (1/2) "观望" (1/2))⟩,
   ⟨"KDJ", 0, 1, fun _ => .ok (mkStrategySignal "HOLD" (1/2) "观望" (1/2))⟩]

/-- The two members of the C8 example: one BUY voter of confidence 0.8
(weight 1) and one HOLD voter of confidence 0.9 (weight 5). -/
def weightedExampleMembers : List EnsembleMember :=
  [⟨"A", 0, 1, fun _ => .ok (mkStrategySignal "BUY" (4/5) "突破" (1/2))⟩,
   ⟨"B", 0, 5, fun _ => .ok (mkStrategySignal "HOLD" (9/10) "观望" (1/2))⟩]

/-- The weight table of the C8 example (`weights.get(name, 1.0)`). -/
def weightedExampleWeights : String → ℚ := fun n => if n = "A" then 1 else 5

/-! ## Theorems -/

/-- C2: every constructed `StrategySignal` stores
`confidence = max(0, min(1, input))` and likewise for `position`; in
particular both stored fields lie in `[0, 1]` whatever values were passed. -/
theorem signal_clamped_on_construction (action reason : String) (c p : ℚ) :
    (mkStrategySignal action c reason p).confidence = max 0 (min 1 c) ∧
    (mkStrategySignal action c reason p).position = max 0 (min 1 p) ∧
    0 ≤ (mkStrategySignal action c reason p).confidence ∧
    (mkStrategySignal action c reason p).confidence ≤ 1 ∧
    0 ≤ (mkStrategySignal action c reason p).position ∧
    (mkStrategySignal action c reason p).position ≤ 1 := by
  refine ⟨rfl, rfl, le_max_left _ _, ?_, le_max_left _ _, ?_⟩ <;>
    · simp only [mkStrategySignal, clamp01]
      exact max_le (by norm_num) (min_le_left _ _)

/-- C1: `safe_analyze` is a total function (it returns a plain
`StrategySignal` on every input, never an exception).  If the history is
shorter than `min_bars` it returns the degenerate HOLD signal
(`confidence = 0`, `position = 1/2`, insufficient-history reason) without
invoking `analyze` (the result is the same for every `analyze`); if
`analyze` raises, the raised message is folded into the reason of the same
degenerate HOLD signal; if `analyze` succeeds its signal is passed through. -/
theorem safe_analyze_spec (mb : ℕ)
    (an an2 : List Bar → Except String StrategySignal) (df : List Bar) :
    (df.length < mb →
      safe_analyze mb an df =
        mkStrategySignal "HOLD" 0 (insufficientReason mb df.length) (1/2) ∧
      (safe_analyze mb an df).action = "HOLD" ∧
      (safe_analyze mb an df).confidence = 0 ∧
      (safe_analyze mb an df).position = 1/2 ∧
      safe_analyze mb an df = safe_analyze mb an2 df) ∧
    (∀ e, mb ≤ df.length → an df = .error e →
      safe_analyze mb an df =
        mkStrategySignal "HOLD" 0 ("分析异常: " ++ toString e) (1/2)) ∧
    (∀ s, mb ≤ df.length → an df = .ok s → safe_analyze mb an df = s) := by
  refine ⟨fun h => ?_, fun e h he => ?_, fun s h hs => ?_⟩
  · refine ⟨?_, ?_, ?_, ?_, ?_⟩ <;>
      · simp [safe_analyze, h, mkStrategySignal, clamp01]
        try norm_num
  · simp [safe_analyze, Nat.not_lt.mpr h, he]
  · simp [safe_analyze, Nat.not_lt.mpr h, hs]

/-- Witness for C1 at concrete inputs: an empty history is shorter than
`min_bars = 3`, and there `safe_analyze` returns the degenerate HOLD signal
independently of the analyzer. -/
theorem safe_analyze_spec_witness :
    ([] : List Bar).length < 3 ∧
    (safe_analyze 3 failingAnalyze [] =
        mkStrategySignal "HOLD" 0 (insufficientReason 3 0) (1/2) ∧
      (safe_analyze 3 failingAnalyze []).action = "HOLD" ∧
      (safe_analyze 3 failingAnalyze []).confidence = 0 ∧
      (safe_analyze 3 failingAnalyze []).position = 1/2 ∧
      safe_analyze 3 failingAnalyze [] = safe_analyze 3 constAnalyze []) := by
  exact ⟨by decide, (safe_analyze_spec 3 failingAnalyze constAnalyze []).1 (by decide)⟩

/-- A property preserved by every step of a fold holds at its end. -/
theorem foldl_preserves {α β : Type _} (P : α → Prop) (f : α → β → α) :
    ∀ (l : List β) (a : α), (∀ a b, b ∈ l → P a → P (f a b)) → P a →
      P (l.foldl f a) := by
  intro l
  induction l with
  | nil => exact fun a _ ha => ha
  | cons x xs ih =>
    intro a hf ha
    exact ih _ (fun a b hb => hf a b (List.mem_cons_of_mem _ hb))
      (hf a x (List.mem_cons_self _ _) ha)

/-- The last close of a nonempty window of positive-close bars is positive. -/
theorem closeOf_take_pos (df : List Bar) (h : ∀ b ∈ df, 0 < b.close)
    (hne : df ≠ []) (n : ℕ) (hn : n ≠ 0) : 0 < closeOf (df.take n) := by
  unfold closeOf
  rcases hlast : (df.take n).getLast? with _ | b
  · rw [List.getLast?_eq_none_iff] at hlast
    rcases List.take_eq_nil_iff.mp hlast with h1 | h1
    · exact absurd h1 hn
    · exact absurd h1 hne
  · have hb : b ∈ df.take n := by
      obtain ⟨hne', rfl⟩ :=
        List.mem_getLast?_eq_getLast (Option.mem_def.mpr hlast)
      exact List.getLast_mem hne'
    exact h b (List.take_subset n df hb)

/-- Shares and cash stay non-negative across the BUY branch: the lot is
only bought when its full cost fits into the available cash. -/
theorem applyBuy_nonneg (commission : ℚ) (date : String) (close : ℚ)
    (sig : StrategySignal) (st : BacktestState)
    (hsh : 0 ≤ st.shares) (hcash : 0 ≤ st.cash) :
    0 ≤ (applyBuy commission date close sig st).shares ∧
    0 ≤ (applyBuy commission date close sig st).cash := by
  simp only [applyBuy]
  split_ifs with h1 h2 h3
  all_goals try exact ⟨hsh, hcash⟩
  all_goals exact ⟨by dsimp only; omega, by dsimp only; linarith⟩

/-- Shares and cash stay non-negative across the SELL branch: the sale
quantity is guarded by `sell_shares ≤ shares` and the revenue of a sale at
a positive price is non-negative as long as commission and tax do not
exceed 100 per cent. -/
theorem applySell_nonneg (commission stamp_tax : ℚ) (date : String)
    (close : ℚ) (sig : StrategySignal) (st : BacktestState)
    (hsh : 0 ≤ st.shares) (hcash : 0 ≤ st.cash) (hc : 0 < close)
    (hfee : commission + stamp_tax ≤ 1) :
    0 ≤ (applySell commission stamp_tax date close sig st).shares ∧
    0 ≤ (applySell commission stamp_tax date close sig st).cash := by
  simp only [applySell]
  split_ifs with h1 h2
  · refine ⟨by dsimp only; omega, ?_⟩
    dsimp only
    have hrev : (0 : ℚ) ≤ (clampedSellShares st.shares (sellTargetPos sig)
        (sellSharesRaw st close sig) : ℚ) * close * (1 - commission - stamp_tax) := by
      have h0 : (0 : ℚ) ≤ (clampedSellShares st.shares (sellTargetPos sig)
          (sellSharesRaw st close sig) : ℚ) := by
        exact_mod_cast le_of_lt h1.1
      have h2' : (0 : ℚ) ≤ 1 - commission - stamp_tax := by linarith
      exact mul_nonneg (mul_nonneg h0 hc.le) h2'
    linarith
  · refine ⟨by dsimp only; omega, ?_⟩
    dsimp only
    have hrev : (0 : ℚ) ≤ (clampedSellShares st.shares (sellTargetPos sig)
        (sellSharesRaw st close sig) : ℚ) * close * (1 - commission - stamp_tax) := by
      have h0 : (0 : ℚ) ≤ (clampedSellShares st.shares (sellTargetPos sig)
          (sellSharesRaw st close sig) : ℚ) := by
        exact_mod_cast le_of_lt h1.1
      have h2' : (0 : ℚ) ≤ 1 - commission - stamp_tax := by linarith
      exact mul_nonneg (mul_nonneg h0 hc.le) h2'
    linarith
  · exact ⟨hsh, hcash⟩

/-- Shares and cash stay non-negative across one full simulated day. -/
theorem backtestStep_nonneg (p : BtParams) (st : BacktestState)
    (date : String) (close : ℚ) (res : Except String StrategySignal)
    (hc : 0 < close) (hfee : p.commission + p.stamp_tax ≤ 1)
    (hsh : 0 ≤ st.shares) (hcash : 0 ≤ st.cash) :
    0 ≤ (backtestStep p st date close res).shares ∧
    0 ≤ (backtestStep p st date close res).cash := by
  have hphase : ∀ st' : BacktestState, 0 ≤ st'.shares → 0 ≤ st'.cash →
      0 ≤ (strategyPhase p date close res st').shares ∧
      0 ≤ (strategyPhase p date close res st').cash := by
    intro st' h1 h2
    simp only [strategyPhase]
    split_ifs with hb hs
    · exact applyBuy_nonneg _ _ _ _ _ h1 h2
    · exact applySell_nonneg _ _ _ _ _ _ h1 h2 hc hfee
    · exact ⟨h1, h2⟩
  simp only [backtestStep]
  split_ifs with h1
  · rcases hr : riskReasonOf p.stop_loss p.trailing_stop p.take_profit
        st.avg_buy_price (updatedPeak st close) close with _ | r
    · simp only [hr]
      exact hphase _ hsh hcash
    · simp only [hr]
      refine ⟨le_refl 0, ?_⟩
      dsimp only
      have hrev : (0 : ℚ) ≤ (st.shares : ℚ) * close * (1 - p.commission - p.stamp_tax) := by
        have h0 : (0 : ℚ) ≤ (st.shares : ℚ) := by exact_mod_cast hsh
        have h2' : (0 : ℚ) ≤ 1 - p.commission - p.stamp_tax := by linarith
        exact mul_nonneg (mul_nonneg h0 hc.le) h2'
      linarith
  · exact hphase _ hsh hcash

/-- C3: throughout every backtest run the account holds `shares ≥ 0` and
`cash ≥ 0` (stated for the full run over an arbitrary bar list, which also
covers the state after every intermediate day, since the run over any
prefix of the list is again such a run); a BUY whose cash cost including
commission exceeds the available cash leaves cash, shares and the trade
log exactly unchanged for that day; and a SELL sized above the current
holding is clamped to exactly the current holding by the engine's
full-liquidation clamp. -/
theorem backtest_account_invariants :
    (∀ (p : BtParams) (mb : ℕ) (an : List Bar → Except String StrategySignal)
       (df : List Bar) (cash0 : ℚ),
       (∀ b ∈ df, 0 < b.close) → p.commission + p.stamp_tax ≤ 1 → 0 ≤ cash0 →
       0 ≤ (backtestRun p mb an df cash0).shares ∧
       0 ≤ (backtestRun p mb an df cash0).cash) ∧
    (∀ (p : BtParams) (st : BacktestState) (date : String) (close : ℚ)
       (res : Except String StrategySignal),
       (effectiveSignal res).action = "BUY" →
       (0 < st.shares → riskReasonOf p.stop_loss p.trailing_stop p.take_profit
          st.avg_buy_price (updatedPeak st close) close = none) →
       st.cash < buyCost p.commission st close (effectiveSignal res) →
       (backtestStep p st date close res).cash = st.cash ∧
       (backtestStep p st date close res).shares = st.shares ∧
       (backtestStep p st date close res).trades = st.trades) ∧
    (∀ (shares : ℤ) (target_pos : ℚ) (raw : ℤ), shares < raw →
       clampedSellShares shares target_pos raw = shares) := by
  refine ⟨?_, ?_, ?_⟩
  · intro p mb an df cash0 hclose hfee hcash0
    unfold backtestRun
    split_ifs with hlen
    · exact ⟨le_refl 0, by simpa [backtestInit] using hcash0⟩
    · refine foldl_preserves
        (fun st : BacktestState => 0 ≤ st.shares ∧ 0 ≤ st.cash) _ _ _
        ?_ ⟨le_refl 0, by simpa [backtestInit] using hcash0⟩
      intro st i hi hst
      have hmem := List.mem_range'_1.mp hi
      have hne : df ≠ [] := by
        have : 0 < df.length := by omega
        exact List.ne_nil_of_length_pos this
      exact backtestStep_nonneg p st _ _ _
        (closeOf_take_pos df hclose hne (i + 1) (by omega)) hfee hst.1 hst.2
  · intro p st date close res hbuy hrisk hcost
    simp only [buyCost, buyAddShares, buyTargetPos] at hcost
    simp only [backtestStep]
    have hframe : ∀ st1 : BacktestState, st1.cash = st.cash →
        st1.shares = st.shares → st1.trades = st.trades →
        (strategyPhase p date close res st1).cash = st.cash ∧
        (strategyPhase p date close res st1).shares = st.shares ∧
        (strategyPhase p date close res st1).trades = st.trades := by
      intro st1 e1 e2 e3
      simp only [strategyPhase]
      rw [if_pos hbuy]
      simp only [applyBuy, buyCost, buyAddShares, buyTargetPos]
      split_ifs with h1 h2 h3 h4
      all_goals first
        | exact ⟨e1, e2, e3⟩
        | (rw [e1, e2] at h3; exact absurd h3 (not_le.mpr hcost))
    split_ifs with h1
    · rw [hrisk h1]
      exact hframe _ rfl rfl rfl
    · exact hframe _ rfl rfl rfl
  · intro shares target_pos raw hlt
    exact if_pos (Or.inr (by omega))

/-- Witness for C3 at concrete inputs: a one-day run satisfying the
hypotheses (positive closes, fees below 100 per cent, non-negative
starting cash) with the invariant at its conclusion. -/
theorem backtest_account_invariants_witness :
    (∀ b ∈ witnessDf, 0 < b.close) ∧
    zeroFeeParams.commission + zeroFeeParams.stamp_tax ≤ 1 ∧
    (0 : ℚ) ≤ 100000 ∧
    (0 ≤ (backtestRun zeroFeeParams 0 witnessBuyAnalyze witnessDf 100000).shares ∧
     0 ≤ (backtestRun zeroFeeParams 0 witnessBuyAnalyze witnessDf 100000).cash) :=
  ⟨by simp [witnessDf], by norm_num [zeroFeeParams], by norm_num,
   backtest_account_invariants.1 zeroFeeParams 0 witnessBuyAnalyze witnessDf 100000
     (by simp [witnessDf]) (by norm_num [zeroFeeParams]) (by norm_num)⟩

/-- One simulated day preserves the board-lot invariant: the held share
count stays a multiple of 100 and every logged trade's quantity is a
multiple of 100. -/
theorem backtestStep_lot (p : BtParams) (st : BacktestState) (date : String)
    (close : ℚ) (res : Except String StrategySignal)
    (hsh : st.shares % 100 = 0)
    (htr : ∀ t ∈ st.trades, t.shares % 100 = 0) :
    (backtestStep p st date close res).shares % 100 = 0 ∧
    ∀ t ∈ (backtestStep p st date close res).trades, t.shares % 100 = 0 := by
  have happ : ∀ (l : List TradeRecord) (a : TradeRecord),
      (∀ t ∈ l, t.shares % 100 = 0) → a.shares % 100 = 0 →
      ∀ t ∈ l ++ [a], t.shares % 100 = 0 := by
    intro l a hl ha t ht
    rcases List.mem_append.mp ht with h | h
    · exact hl t h
    · rw [List.mem_singleton.mp h]
      exact ha
  have hphase : ∀ st1 : BacktestState, st1.shares % 100 = 0 →
      (∀ t ∈ st1.trades, t.shares % 100 = 0) →
      (strategyPhase p date close res st1).shares % 100 = 0 ∧
      ∀ t ∈ (strategyPhase p date close res st1).trades, t.shares % 100 = 0 := by
    intro st1 h1 h2
    simp only [strategyPhase]
    split_ifs with hb hs
    · simp only [applyBuy, buyAddShares]
      split_ifs with g1 g2 g3 g4
      all_goals try exact ⟨h1, h2⟩
      all_goals exact ⟨by first | (dsimp only; omega) | omega,
        happ _ _ h2 (by first | (dsimp only; omega) | omega)⟩
    · simp only [applySell, clampedSellShares, sellSharesRaw]
      split_ifs with g1 g2 g3
      all_goals try exact ⟨h1, h2⟩
      all_goals exact ⟨by first | (dsimp only; omega) | omega,
        happ _ _ h2 (by first | (dsimp only; omega) | omega)⟩
    · exact ⟨h1, h2⟩
  simp only [backtestStep]
  split_ifs with hpos
  · rcases hr : riskReasonOf p.stop_loss p.trailing_stop p.take_profit
        st.avg_buy_price (updatedPeak st close) close with _ | r
    · simp only [hr]
      exact hphase _ hsh htr
    · simp only [hr]
      exact ⟨by first | (dsimp only; omega) | omega,
        happ _ _ htr (by first | (dsimp only; omega) | omega)⟩
  · exact hphase _ hsh htr

/-- C9: in every backtest run, the final holding and every trade the
engine ever records (BUY, strategy SELL or risk-control SELL, including
full liquidations) have share quantities that are multiples of 100; the
holding is invariantly a multiple of 100 throughout (this statement over
arbitrary bar lists covers every intermediate day, since the run over any
prefix is again such a run). -/
theorem backtest_lot_rounding (p : BtParams) (mb : ℕ)
    (an : List Bar → Except String StrategySignal) (df : List Bar)
    (cash0 : ℚ) :
    (backtestRun p mb an df cash0).shares % 100 = 0 ∧
    ∀ t ∈ (backtestRun p mb an df cash0).trades, t.shares % 100 = 0 := by
  unfold backtestRun
  split_ifs with hlen
  · exact ⟨by simp [backtestInit], by simp [backtestInit]⟩
  · exact foldl_preserves
      (fun st : BacktestState => st.shares % 100 = 0 ∧
        ∀ t ∈ st.trades, t.shares % 100 = 0) _ _ _
      (fun st i _ h => backtestStep_lot p st _ _ _ h.1 h.2)
      ⟨by simp [backtestInit], by simp [backtestInit]⟩

/-- Witness for C9 at concrete inputs: the final holding of a concrete
one-day run is a multiple of 100. -/
theorem backtest_lot_rounding_witness :
    (backtestRun zeroFeeParams 0 witnessBuyAnalyze witnessDf 100000).shares % 100 = 0 ∧
    ∀ t ∈ (backtestRun zeroFeeParams 0 witnessBuyAnalyze witnessDf 100000).trades,
      t.shares % 100 = 0 :=
  backtest_lot_rounding zeroFeeParams 0 witnessBuyAnalyze witnessDf 100000

/-- C10: on a day whose signal is SELL (with a holding and no risk exit),
a sale that leaves `shares > 0` never changes `avg_buy_price`, and the
post-trade cost basis `total_buy_cost / shares` still equals the pre-trade
`avg_buy_price` (so later `pnl_pct` values are still measured against the
original volume-weighted entry price); `avg_buy_price`/`total_buy_cost`
are reset to zero exactly when `shares` reaches zero. -/
theorem sell_preserves_cost_basis (p : BtParams) (st : BacktestState)
    (date : String) (close : ℚ) (sig : StrategySignal)
    (hsh : 0 < st.shares)
    (hrisk : riskReasonOf p.stop_loss p.trailing_stop p.take_profit
      st.avg_buy_price (updatedPeak st close) close = none)
    (hact : sig.action = "SELL")
    (hinv : st.total_buy_cost = (st.shares : ℚ) * st.avg_buy_price)
    (havg : st.avg_buy_price ≠ 0) :
    ((0 : ℤ) < (backtestStep p st date close (.ok sig)).shares →
      (backtestStep p st date close (.ok sig)).avg_buy_price = st.avg_buy_price ∧
      (backtestStep p st date close (.ok sig)).total_buy_cost =
        ((backtestStep p st date close (.ok sig)).shares : ℚ) * st.avg_buy_price ∧
      (backtestStep p st date close (.ok sig)).total_buy_cost /
        ((backtestStep p st date close (.ok sig)).shares : ℚ) = st.avg_buy_price) ∧
    ((backtestStep p st date close (.ok sig)).shares = 0 →
      (backtestStep p st date close (.ok sig)).avg_buy_price = 0 ∧
      (backtestStep p st date close (.ok sig)).total_buy_cost = 0) ∧
    ((backtestStep p st date close (.ok sig)).avg_buy_price = 0 →
      (backtestStep p st date close (.ok sig)).shares = 0) := by
  simp only [backtestStep]
  rw [if_pos hsh]
  simp only [hrisk]
  simp only [strategyPhase, effectiveSignal]
  rw [if_neg (by rw [hact]; decide)]
  rw [if_pos (⟨hact, hsh⟩ : sig.action = "SELL" ∧ 0 < st.shares)]
  simp only [applySell]
  split_ifs with g1 g2
  · refine ⟨fun h => absurd h (by dsimp only at h ⊢; omega), fun _ => ⟨rfl, rfl⟩,
      fun _ => rfl⟩
  · have hnz : ((st.shares - clampedSellShares st.shares (sellTargetPos sig)
        (sellSharesRaw st close sig) : ℤ) : ℚ) ≠ 0 := by
      exact_mod_cast g2
    refine ⟨fun _ => ⟨rfl, rfl, ?_⟩, fun h => absurd h g2, fun h => absurd h havg⟩
    exact mul_div_cancel_left₀ _ hnz
  · have hnzq : ((st.shares : ℚ)) ≠ 0 := by
      have : (st.shares : ℤ) ≠ 0 := by omega
      exact_mod_cast this
    refine ⟨fun _ => ⟨rfl, hinv, ?_⟩, fun h => absurd h (by dsimp only at h ⊢; omega),
      fun h => absurd h havg⟩
    rw [hinv]
    exact mul_div_cancel_left₀ _ hnzq

/-- Witness for C10 at concrete inputs: a half-position SELL of a 400-share
holding; all hypotheses hold and the theorem applies. -/
theorem sell_preserves_cost_basis_witness :
    (0 : ℤ) < partialSellAccount.shares ∧
    riskReasonOf zeroFeeParams.stop_loss zeroFeeParams.trailing_stop
      zeroFeeParams.take_profit partialSellAccount.avg_buy_price
      (updatedPeak partialSellAccount 10) 10 = none ∧
    partialSellSignal.action = "SELL" ∧
    partialSellAccount.total_buy_cost =
      (partialSellAccount.shares : ℚ) * partialSellAccount.avg_buy_price ∧
    partialSellAccount.avg_buy_price ≠ 0 ∧
    (((0 : ℤ) < (backtestStep zeroFeeParams partialSellAccount "d" 10
        (.ok partialSellSignal)).shares →
      (backtestStep zeroFeeParams partialSellAccount "d" 10
        (.ok partialSellSignal)).avg_buy_price = partialSellAccount.avg_buy_price ∧
      (backtestStep zeroFeeParams partialSellAccount "d" 10
        (.ok partialSellSignal)).total_buy_cost =
        ((backtestStep zeroFeeParams partialSellAccount "d" 10
          (.ok partialSellSignal)).shares : ℚ) * partialSellAccount.avg_buy_price ∧
      (backtestStep zeroFeeParams partialSellAccount "d" 10
        (.ok partialSellSignal)).total_buy_cost /
        ((backtestStep zeroFeeParams partialSellAccount "d" 10
          (.ok partialSellSignal)).shares : ℚ) = partialSellAccount.avg_buy_price)) := by
  refine ⟨by norm_num [partialSellAccount], ?_, rfl, by norm_num [partialSellAccount],
    by norm_num [partialSellAccount], ?_⟩
  · norm_num [riskReasonOf, updatedPeak, zeroFeeParams, partialSellAccount]
  · exact (sell_preserves_cost_basis zeroFeeParams partialSellAccount "d" 10
      partialSellSignal (by norm_num [partialSellAccount])
      (by norm_num [riskReasonOf, updatedPeak, zeroFeeParams, partialSellAccount])
      rfl (by norm_num [partialSellAccount])
      (by norm_num [partialSellAccount])).1

/-- C4 (amended): while holding shares the risk-control block runs before
the strategy is consulted; if any check matches, the engine fully
liquidates at the day's close with sell commission and stamp tax, logs one
SELL record tagged `[风控]`, resets `avg_buy_price`, `total_buy_cost` and
the peak to zero, and the strategy's signal has no effect whatsoever on
the day's outcome (the resulting state is the same for every signal).
All three checks are evaluated; when several match on the same day the
recorded reason is that of the LAST matching check in evaluation order
(stop-loss, then trailing stop, then take-profit), not the first. -/
theorem risk_exit_spec (p : BtParams) (st : BacktestState) (date : String)
    (close : ℚ) (r : RiskReason) (hsh : 0 < st.shares)
    (hr : riskReasonOf p.stop_loss p.trailing_stop p.take_profit
      st.avg_buy_price (updatedPeak st close) close = some r) :
    (∀ res : Except String StrategySignal,
      backtestStep p st date close res =
        { cash := st.cash + (st.shares : ℚ) * close * (1 - p.commission - p.stamp_tax)
          shares := 0
          avg_buy_price := 0
          total_buy_cost := 0
          max_price_since_buy := 0
          trades := st.trades ++
            [⟨date, "SELL", close, st.shares, none,
              some (pyRound2 ((close - st.avg_buy_price) / st.avg_buy_price * 100)),
              some r, "[风控]"⟩]
          equity_curve := st.equity_curve ++
            [st.cash + (st.shares : ℚ) * close * (1 - p.commission - p.stamp_tax)] }) ∧
    ((0 < p.take_profit ∧
        p.take_profit ≤ (close - st.avg_buy_price) / st.avg_buy_price) →
      r = RiskReason.takeProfit) ∧
    (¬(0 < p.take_profit ∧
        p.take_profit ≤ (close - st.avg_buy_price) / st.avg_buy_price) →
      (0 < p.trailing_stop ∧ st.avg_buy_price < updatedPeak st close ∧
        p.trailing_stop ≤ (updatedPeak st close - close) / updatedPeak st close) →
      r = RiskReason.trailingStop) ∧
    (¬(0 < p.take_profit ∧
        p.take_profit ≤ (close - st.avg_buy_price) / st.avg_buy_price) →
      ¬(0 < p.trailing_stop ∧ st.avg_buy_price < updatedPeak st close ∧
        p.trailing_stop ≤ (updatedPeak st close - close) / updatedPeak st close) →
      (0 < p.stop_loss ∧
        (close - st.avg_buy_price) / st.avg_buy_price ≤ -p.stop_loss) →
      r = RiskReason.stopLoss) := by
  refine ⟨?_, ?_, ?_, ?_⟩
  · intro res
    simp only [backtestStep]
    rw [if_pos hsh]
    simp only [hr]
  · intro htp
    simp only [riskReasonOf] at hr
    rw [if_pos htp] at hr
    exact (Option.some.inj hr).symm
  · intro htp htr
    simp only [riskReasonOf] at hr
    rw [if_neg htp, if_pos htr] at hr
    exact (Option.some.inj hr).symm
  · intro htp htr hsl
    simp only [riskReasonOf] at hr
    rw [if_neg htp, if_neg htr, if_pos hsl] at hr
    exact (Option.some.inj hr).symm

/-- Counterexample to C4 as stated: at close 9 the stop-loss condition
(the first check) matches, the trailing-stop condition also matches, and
the logged risk reason is the trailing stop — the LAST matching check wins
because each check overwrites `risk_reason`, so the checks are neither
first-match-wins nor skipped after a match. -/
theorem risk_priority_counterexample :
    (0 < bothStopsParams.stop_loss ∧
      (9 - bothStopsAccount.avg_buy_price) / bothStopsAccount.avg_buy_price ≤
        -bothStopsParams.stop_loss) ∧
    (0 < bothStopsParams.trailing_stop ∧
      bothStopsAccount.avg_buy_price < updatedPeak bothStopsAccount 9 ∧
      bothStopsParams.trailing_stop ≤
        (updatedPeak bothStopsAccount 9 - 9) / updatedPeak bothStopsAccount 9) ∧
    (backtestStep bothStopsParams bothStopsAccount "d" 9 (.ok holdSignal)).trades.map
      (fun t => t.risk) = [some RiskReason.trailingStop] ∧
    RiskReason.trailingStop ≠ RiskReason.stopLoss := by
  refine ⟨?_, ?_, ?_, by decide⟩
  · norm_num [bothStopsParams, bothStopsAccount]
  · norm_num [bothStopsParams, bothStopsAccount, updatedPeak]
  · simp only [backtestStep, bothStopsParams, bothStopsAccount, riskReasonOf,
      updatedPeak]
    norm_num

/-- C5 (amended): on a day with a holding and `trailing_stop > 0` (other
risk controls disabled), the peak is first updated to
`max(peak, close)`, and the trailing stop then fires if and only if the
updated peak strictly exceeds `avg_buy_price` AND the drawdown from the
updated peak `(peak - close) / peak` reaches `trailing_stop`.  The claim's
version omits the `peak > avg_buy_price` guard. -/
theorem trailing_stop_spec (st : BacktestState) (close ts : ℚ)
    (hsh : 0 < st.shares) (hts : 0 < ts) :
    updatedPeak st close = max st.max_price_since_buy close ∧
    (riskReasonOf 0 ts 0 st.avg_buy_price (updatedPeak st close) close =
        some RiskReason.trailingStop ↔
      (st.avg_buy_price < updatedPeak st close ∧
        ts ≤ (updatedPeak st close - close) / updatedPeak st close)) := by
  constructor
  · unfold updatedPeak
    split_ifs with h
    · exact (max_eq_right h.2.le).symm
    · have hnc : ¬ st.max_price_since_buy < close := fun hc => h ⟨hsh, hc⟩
      exact (max_eq_left (not_lt.mp hnc)).symm
  · simp only [riskReasonOf, lt_irrefl, false_and, if_false]
    split_ifs with h
    · simp only [Option.some.injEq]
      exact ⟨fun _ => ⟨h.2.1, h.2.2⟩, fun _ => trivial⟩
    · constructor
      · intro hc
        exact absurd hc (by simp)
      · intro hc
        exact absurd ⟨hts, hc.1, hc.2⟩ h

/-- Counterexample to C5 as stated: the drawdown from the updated peak
reaches the trailing-stop threshold, yet the engine does not liquidate
(no trade is logged and the holding is unchanged), because the source
additionally requires `max_price_since_buy > avg_buy_price`, which fails
when the peak never rose above the entry price. -/
theorem trailing_stop_counterexample :
    (1/20 : ℚ) ≤ (updatedPeak trailingGuardAccount 9 - 9) /
      updatedPeak trailingGuardAccount 9 ∧
    0 < trailingGuardAccount.shares ∧
    0 < trailingOnlyParams.trailing_stop ∧
    (backtestStep trailingOnlyParams trailingGuardAccount "d" 9
      (.ok holdSignal)).shares = trailingGuardAccount.shares ∧
    (backtestStep trailingOnlyParams trailingGuardAccount "d" 9
      (.ok holdSignal)).trades = [] := by
  refine ⟨?_, by norm_num [trailingGuardAccount], by norm_num [trailingOnlyParams],
    ?_, ?_⟩
  · norm_num [updatedPeak, trailingGuardAccount]
  · simp only [backtestStep, trailingOnlyParams, trailingGuardAccount,
      riskReasonOf, updatedPeak, strategyPhase, effectiveSignal, holdSignal,
      mkStrategySignal, clamp01]
    norm_num
    simp
  · simp only [backtestStep, trailingOnlyParams, trailingGuardAccount,
      riskReasonOf, updatedPeak, strategyPhase, effectiveSignal, holdSignal,
      mkStrategySignal, clamp01]
    norm_num
    simp

/-- Every vote falls in exactly one of the BUY / SELL / HOLD buckets. -/
theorem votes_partition_length (votes : List (String × StrategySignal)) :
    (buyVotes votes).length + (sellVotes votes).length +
      (holdVotes votes).length = votes.length := by
  induction votes with
  | nil => simp [buyVotes, sellVotes, holdVotes]
  | cons v vs ih =>
    simp only [buyVotes, sellVotes, holdVotes] at ih ⊢
    by_cases hb : v.2.action = "BUY" <;> by_cases hs : v.2.action = "SELL"
    · rw [hb] at hs
      exact absurd hs (by decide)
    all_goals simp [List.filter_cons, hb, hs]
    all_goals omega

/-- C6 (amended): the participating votes of an ensemble call are exactly
the members with sufficient history whose raw `analyze` succeeds — each
such member contributes exactly one vote, and a member is excluded (from
both the tally and the participating-count denominator) when its history
is insufficient OR its `analyze` raises (the source calls raw `analyze`
under `try/except`, not `safe_analyze`); the collected votes partition
into the BUY, SELL and HOLD buckets. -/
theorem ensemble_vote_collection (df : List Bar)
    (members : List EnsembleMember) :
    (collectVotes df members).length =
      (members.filter (analyzeSucceeds df)).length ∧
    (buyVotes (collectVotes df members)).length +
      (sellVotes (collectVotes df members)).length +
      (holdVotes (collectVotes df members)).length =
      (collectVotes df members).length := by
  refine ⟨?_, votes_partition_length _⟩
  induction members with
  | nil => simp [collectVotes]
  | cons m ms ih =>
    simp only [collectVotes, List.filterMap_cons, List.filter_cons] at ih ⊢
    by_cases h1 : df.length < m.min_bars
    · simp only [h1, if_true, analyzeSucceeds, decide_True, Bool.not_true,
        Bool.false_and, if_false]
      exact ih
    · rcases ha : m.analyze df with e | s
      · simp [h1, ha, analyzeSucceeds]
        omega
      · simp [h1, ha, analyzeSucceeds]
        omega

/-- Witness for C4 at concrete inputs: the `bothStopsAccount` day satisfies
the hypotheses (holding shares, a risk reason fires), and by the theorem
the day's outcome is independent of the strategy's answer. -/
theorem risk_exit_spec_witness :
    (0 : ℤ) < bothStopsAccount.shares ∧
    riskReasonOf bothStopsParams.stop_loss bothStopsParams.trailing_stop
      bothStopsParams.take_profit bothStopsAccount.avg_buy_price
      (updatedPeak bothStopsAccount 9) 9 = some RiskReason.trailingStop ∧
    backtestStep bothStopsParams bothStopsAccount "d" 9 (.ok holdSignal) =
      backtestStep bothStopsParams bothStopsAccount "d" 9 (.error "宕机") := by
  have hsh : (0 : ℤ) < bothStopsAccount.shares := by norm_num [bothStopsAccount]
  have hr : riskReasonOf bothStopsParams.stop_loss bothStopsParams.trailing_stop
      bothStopsParams.take_profit bothStopsAccount.avg_buy_price
      (updatedPeak bothStopsAccount 9) 9 = some RiskReason.trailingStop := by
    norm_num [riskReasonOf, updatedPeak, bothStopsParams, bothStopsAccount]
  refine ⟨hsh, hr, ?_⟩
  rw [(risk_exit_spec bothStopsParams bothStopsAccount "d" 9
        RiskReason.trailingStop hsh hr).1 (.ok holdSignal),
      (risk_exit_spec bothStopsParams bothStopsAccount "d" 9
        RiskReason.trailingStop hsh hr).1 (.error "宕机")]

/-- Witness for C5 at concrete inputs: the `trailingGuardAccount` day
satisfies the hypotheses (holding shares, positive trailing threshold) and
the theorem's peak update and trigger characterization hold there. -/
theorem trailing_stop_spec_witness :
    (0 : ℤ) < trailingGuardAccount.shares ∧ (0 : ℚ) < 1/20 ∧
    (updatedPeak trailingGuardAccount 9 =
        max trailingGuardAccount.max_price_since_buy 9 ∧
      (riskReasonOf 0 (1/20) 0 trailingGuardAccount.avg_buy_price
          (updatedPeak trailingGuardAccount 9) 9 = some RiskReason.trailingStop ↔
        (trailingGuardAccount.avg_buy_price < updatedPeak trailingGuardAccount 9 ∧
          (1/20 : ℚ) ≤ (updatedPeak trailingGuardAccount 9 - 9) /
            updatedPeak trailingGuardAccount 9))) :=
  ⟨by norm_num [trailingGuardAccount], by norm_num,
   trailing_stop_spec trailingGuardAccount 9 (1/20)
     (by norm_num [trailingGuardAccount]) (by norm_num)⟩

/-- Counterexample to C6 as stated: a member whose `min_bars` is satisfied
by the history but whose `analyze` raises contributes NO vote — the tally
and the participating count are both empty, so insufficient history is not
the only exclusion reason and the member that ran does not get a vote. -/
theorem ensemble_excludes_raising_member :
    raisingMember.min_bars ≤ fiftyBars.length ∧
    collectVotes fiftyBars [raisingMember] = [] ∧
    (collectVotes fiftyBars [raisingMember]).length = 0 := by
  refine ⟨by simp [raisingMember, fiftyBars], ?_, ?_⟩ <;>
    simp [collectVotes, raisingMember, fiftyBars]

/-- `clamp01` is the identity on values already in `[0, 1]`. -/
theorem clamp01_of_mem (x : ℚ) (h0 : 0 ≤ x) (h1 : x ≤ 1) : clamp01 x = x := by
  unfold clamp01
  rw [min_eq_right h1, max_eq_right h0]

/-- C7: in majority mode the buy ratio is `|buy| / total` where `total`
counts every participating member (HOLD voters in the denominator, never
in a numerator), BUY fires with the mean confidence of the buy voters as
soon as the ratio reaches `buy_threshold`, SELL symmetrically when BUY did
not fire, and otherwise the result is HOLD with confidence 0.5; on the
concrete example of 3 BUY voters (0.6, 0.7, 0.8) and 2 HOLD voters with
`buy_threshold = 0.5` the result is BUY with confidence 0.70. -/
theorem majority_vote_spec :
    (∀ (bThr sThr : ℚ) (buy sell : List (String × StrategySignal)) (total : ℕ),
      (bThr ≤ (buy.length : ℚ) / (total : ℚ) →
        majorityDecision bThr sThr buy sell total = ("BUY", avgConfidence buy)) ∧
      ((buy.length : ℚ) / (total : ℚ) < bThr →
        sThr ≤ (sell.length : ℚ) / (total : ℚ) →
        majorityDecision bThr sThr buy sell total = ("SELL", avgConfidence sell)) ∧
      ((buy.length : ℚ) / (total : ℚ) < bThr →
        (sell.length : ℚ) / (total : ℚ) < sThr →
        majorityDecision bThr sThr buy sell total = ("HOLD", 1/2))) ∧
    ((collectVotes [] majorityExampleMembers).length = 5 ∧
      (buyVotes (collectVotes [] majorityExampleMembers)).length = 3 ∧
      (holdVotes (collectVotes [] majorityExampleMembers)).length = 2 ∧
      majorityDecision (1/2) (1/2)
        (buyVotes (collectVotes [] majorityExampleMembers))
        (sellVotes (collectVotes [] majorityExampleMembers))
        (collectVotes [] majorityExampleMembers).length = ("BUY", 7/10)) := by
  constructor
  · intro bThr sThr buy sell total
    refine ⟨fun h => ?_, fun h1 h2 => ?_, fun h1 h2 => ?_⟩
    · unfold majorityDecision
      rw [if_pos h]
    · unfold majorityDecision
      rw [if_neg (not_le.mpr h1), if_pos h2]
    · unfold majorityDecision
      rw [if_neg (not_le.mpr h1), if_neg (not_le.mpr h2)]
  · refine ⟨?_, ?_, ?_, ?_⟩ <;>
      · simp [collectVotes, majorityExampleMembers, buyVotes, sellVotes,
          holdVotes, majorityDecision, avgConfidence, mkStrategySignal,
          clamp01, min_def, max_def]
        try norm_num

/-- Witness for C7 at concrete inputs: with one BUY voter out of two
participants and `buy_threshold = 0.5`, the threshold is met and the
majority decision is BUY at that voter's confidence. -/
theorem majority_vote_spec_witness :
    ((1/2 : ℚ) ≤ (([("MA", mkStrategySignal "BUY" (3/4) "金叉" (1/2))] :
        List (String × StrategySignal)).length : ℚ) / ((2 : ℕ) : ℚ)) ∧
    majorityDecision (1/2) (1/2)
      [("MA", mkStrategySignal "BUY" (3/4) "金叉" (1/2))] [] 2 =
      ("BUY", avgConfidence [("MA", mkStrategySignal "BUY" (3/4) "金叉" (1/2))]) :=
  ⟨by norm_num,
   (majority_vote_spec.1 (1/2) (1/2)
      [("MA", mkStrategySignal "BUY" (3/4) "金叉" (1/2))] [] 2).1
     (by norm_num)⟩

/-- C8: in weighted mode `buy_score` is `Σ weight × confidence` over BUY
voters and `sell_score` symmetrically over SELL voters (HOLD voters are
not in either list, hence contribute zero); when both scores are zero the
result is HOLD; otherwise the percentages `score / (buy_score+sell_score)`
are compared with the thresholds, a tie between the percentages yielding
HOLD; on the concrete example of one BUY voter (weight 1, confidence 0.8)
and one HOLD voter (weight 5), `buy_pct = 1` and BUY fires regardless of
the HOLD voter's weight. -/
theorem weighted_vote_spec :
    (∀ (bThr sThr : ℚ) (w : String → ℚ)
       (buy sell : List (String × StrategySignal)),
      (weightedScore w buy + weightedScore w sell = 0 →
        weightedDecision bThr sThr w buy sell = ("HOLD", 1/2)) ∧
      (weightedScore w buy + weightedScore w sell ≠ 0 →
        weightedScore w sell / (weightedScore w buy + weightedScore w sell) <
          weightedScore w buy / (weightedScore w buy + weightedScore w sell) →
        bThr ≤ weightedScore w buy / (weightedScore w buy + weightedScore w sell) →
        weightedDecision bThr sThr w buy sell =
          ("BUY", pyRound2 (weightedScore w buy /
            (weightedScore w buy + weightedScore w sell)))) ∧
      (weightedScore w buy + weightedScore w sell ≠ 0 →
        weightedScore w buy / (weightedScore w buy + weightedScore w sell) <
          weightedScore w sell / (weightedScore w buy + weightedScore w sell) →
        sThr ≤ weightedScore w sell / (weightedScore w buy + weightedScore w sell) →
        weightedDecision bThr sThr w buy sell =
          ("SELL", pyRound2 (weightedScore w sell /
            (weightedScore w buy + weightedScore w sell)))) ∧
      (weightedScore w buy / (weightedScore w buy + weightedScore w sell) =
          weightedScore w sell / (weightedScore w buy + weightedScore w sell) →
        weightedDecision bThr sThr w buy sell = ("HOLD", 1/2))) ∧
    (weightedScore weightedExampleWeights
        (buyVotes (collectVotes [] weightedExampleMembers)) = 4/5 ∧
      weightedScore weightedExampleWeights
        (sellVotes (collectVotes [] weightedExampleMembers)) = 0 ∧
      weightedDecision (1/2) (1/2) weightedExampleWeights
        (buyVotes (collectVotes [] weightedExampleMembers))
        (sellVotes (collectVotes [] weightedExampleMembers)) = ("BUY", 1)) := by
  constructor
  · intro bThr sThr w buy sell
    refine ⟨fun h0 => ?_, fun h0 h1 h2 => ?_, fun h0 h1 h2 => ?_, fun he => ?_⟩
    · unfold weightedDecision
      rw [if_pos h0]
    · unfold weightedDecision
      rw [if_neg h0, if_pos ⟨h1, h2⟩]
    · unfold weightedDecision
      rw [if_neg h0, if_neg (fun hc => absurd h1 (not_lt.mpr hc.1.le)),
        if_pos ⟨h1, h2⟩]
    · unfold weightedDecision
      by_cases h0 : weightedScore w buy + weightedScore w sell = 0
      · rw [if_pos h0]
      · rw [if_neg h0, if_neg (fun hc => absurd he (ne_of_gt hc.1)),
          if_neg (fun hc => absurd he (ne_of_lt hc.1))]
  · refine ⟨?_, ?_, ?_⟩ <;>
      · simp [collectVotes, weightedExampleMembers, weightedExampleWeights,
          buyVotes, sellVotes, weightedScore, weightedDecision,
          mkStrategySignal, clamp01, min_def, max_def, pyRound2, pyRoundInt]
        try norm_num

/-- Witness for C8 at concrete inputs: a single BUY vote gives a nonzero
total score, a strictly larger buy percentage and a met threshold, and the
weighted decision is BUY at the rounded percentage. -/
theorem weighted_vote_spec_witness :
    (weightedScore weightedExampleWeights
        [("A", mkStrategySignal "BUY" (4/5) "突破" (1/2))] +
      weightedScore weightedExampleWeights [] ≠ 0) ∧
    weightedDecision (1/2) (1/2) weightedExampleWeights
      [("A", mkStrategySignal "BUY" (4/5) "突破" (1/2))] [] =
      ("BUY", pyRound2 (weightedScore weightedExampleWeights
          [("A", mkStrategySignal "BUY" (4/5) "突破" (1/2))] /
        (weightedScore weightedExampleWeights
            [("A", mkStrategySignal "BUY" (4/5) "突破" (1/2))] +
          weightedScore weightedExampleWeights []))) := by
  have h0 : weightedScore weightedExampleWeights
      [("A", mkStrategySignal "BUY" (4/5) "突破" (1/2))] +
      weightedScore weightedExampleWeights [] ≠ 0 := by
    simp [weightedScore, weightedExampleWeights, mkStrategySignal, clamp01,
      min_def, max_def]
    norm_num
  refine ⟨h0, (weighted_vote_spec.1 (1/2) (1/2) weightedExampleWeights
    [("A", mkStrategySignal "BUY" (4/5) "突破" (1/2))] []).2.1 h0 ?_ ?_⟩
  · simp [weightedScore, weightedExampleWeights, mkStrategySignal, clamp01,
      min_def, max_def]
    norm_num
  · simp [weightedScore, weightedExampleWeights, mkStrategySignal, clamp01,
      min_def, max_def]
    norm_num

end AITrading
